import Mathlib

/-!
Verification of the volcano scheduler plugins (ex-priority, time-priority,
groupquota) against their natural-language specification.

The Go sources are shallowly embedded: Go pointers become Option, Go maps
become association lists or functions into Option, time.Time and
time.Duration become Int (nanoseconds; the zero time is 0), int32
priorities become Int (all comparisons and equality used by the code are
faithful under this embedding), and a Go panic (nil-pointer dereference)
becomes a none result of an Option-valued function.
-/

namespace Volcano

/-! Priority-selector engine, from pkg/scheduler/plugins/util/priority. -/

/-- Operator constants for priority expression matching. -/
def OperatorIn : String := "In"

def OperatorNotIn : String := "NotIn"

def OperatorBetween : String := "Between"

def OperatorLt : String := "Lt"

def OperatorGt : String := "Gt"

def OperatorLte : String := "Lte"

def OperatorGte : String := "Gte"

/-- PriorityExpression defines a single priority matching expression. -/
structure PriorityExpression where
  operator : String
  values : List Int
  deriving Repr, DecidableEq

/-- Matches checks whether the given priority matches this expression,
following the switch in PriorityExpression.Matches: In and NotIn test list
membership; Between requires at least two values and normalises the first
two so the smaller is the lower inclusive bound; Lt, Gt, Lte and Gte
require a non-empty value list and compare against the first value; an
unknown operator never matches. -/
def PriorityExpression.Matches (expr : PriorityExpression) (p : Int) : Bool :=
  if expr.operator = OperatorIn then
    expr.values.contains p
  else if expr.operator = OperatorNotIn then
    !(expr.values.contains p)
  else if expr.operator = OperatorBetween then
    if 2 ≤ expr.values.length then
      let v0 := expr.values.getD 0 0
      let v1 := expr.values.getD 1 0
      let lo := if v1 < v0 then v1 else v0
      let hi := if v1 < v0 then v0 else v1
      decide (lo ≤ p) && decide (p ≤ hi)
    else
      false
  else if expr.operator = OperatorLt then
    decide (0 < expr.values.length) && decide (p < expr.values.getD 0 0)
  else if expr.operator = OperatorGt then
    decide (0 < expr.values.length) && decide (expr.values.getD 0 0 < p)
  else if expr.operator = OperatorLte then
    decide (0 < expr.values.length) && decide (p ≤ expr.values.getD 0 0)
  else if expr.operator = OperatorGte then
    decide (0 < expr.values.length) && decide (expr.values.getD 0 0 ≤ p)
  else
    false

/-- PrioritySelector is a set of priority expressions combined with OR
logic (anyExpressions). -/
structure PrioritySelector where
  anyExpressions : List PriorityExpression
  deriving Repr, DecidableEq

/-- Matches checks whether the given priority matches any of the
expressions (OR logic); the Go receiver is a pointer, so a nil receiver
(Option.none here) returns false, as does an empty expression list. -/
def PrioritySelector.Matches (sel : Option PrioritySelector) (p : Int) : Bool :=
  match sel with
  | none => false
  | some s =>
    if s.anyExpressions.length = 0 then false
    else s.anyExpressions.any (fun e => e.Matches p)

/-! ex-priority plugin data model, from the expriority package. -/

/-- SortOrder constant: sort by priority. -/
def SortByPriority : String := "priority"

/-- SortOrder constant: sort by creation time. -/
def SortByCreationTime : String := "creationTime"

/-- BlockingScope constant: blocking applies cluster-wide. -/
def BlockingScopeCluster : String := "cluster"

/-- BlockingScope constant: blocking applies per-queue (the default). -/
def BlockingScopeQueue : String := "queue"

/-- A duration string as consumed by the external time.ParseDuration:
either it parses to a duration of d nanoseconds or it fails to parse.
The empty string is one of the unparseable strings, so the separate
empty-value check in the Go code is absorbed into the invalid case. -/
inductive DurStr where
  | valid (d : Int)
  | invalid
  deriving Repr, DecidableEq

/-- time.ParseDuration on the abstracted duration strings. -/
def parseDuration : DurStr → Option Int
  | .valid d => some d
  | .invalid => none

/-- The fields of a pod that ex-priority reads: the annotation map (the
max-run-time value is a duration string), the pod status start time
(a nil-able pointer) and the pod creation timestamp (0 is the zero time). -/
structure Pod where
  annotations : List (String × DurStr)
  startTime : Option Int
  creationTimestamp : Int
  deriving Repr, DecidableEq

/-- The fields of api.TaskInfo that ex-priority reads: the owning job id,
the task priority and the (nil-able) pod. -/
structure TaskInfo where
  job : String
  priority : Int
  pod : Option Pod
  deriving Repr, DecidableEq

/-- The fields of api.JobInfo that ex-priority reads. isPending models the
host's IsPending phase predicate; creationTimestamp 0 is the zero time. -/
structure JobInfo where
  uid : String
  queue : String
  priority : Int
  creationTimestamp : Int
  isPending : Bool
  deriving Repr, DecidableEq

/-- Config of the ex-priority plugin; an empty maxRunTimeAnnotationKey
means the key was not configured (the Go zero value). -/
structure ExConfig where
  sortOrder : List String
  preemptible : Option PrioritySelector
  reclaimable : Option PrioritySelector
  blocking : Option PrioritySelector
  blockingScope : String
  maxRunTimeAnnotationKey : String
  deriving Repr

/-- Return values of enqueueable callbacks, from plugins/util. -/
def Permit : Int := 1

/-- Abstain return value, from plugins/util. -/
def Abstain : Int := 0

/-- Reject return value, from plugins/util. -/
def Reject : Int := -1

/-- getTaskCreationTime returns the creation time of a task: the pod
status start time when set, else the pod creation timestamp when not
zero, else the zero time; nil task or nil pod give the zero time. -/
def getTaskCreationTime : Option TaskInfo → Int
  | none => 0
  | some t =>
    match t.pod with
    | none => 0
    | some pod =>
      match pod.startTime with
      | some st => st
      | none => if pod.creationTimestamp ≠ 0 then pod.creationTimestamp else 0

/-- isTaskTimedOut reports whether the task carries the configured
max-run-time annotation with a parseable positive duration, has a start
time, and startTime + duration has passed now; any missing piece gives
false. -/
def isTaskTimedOut (cfg : ExConfig) (task : Option TaskInfo) (now : Int) : Bool :=
  match task with
  | none => false
  | some t =>
    if cfg.maxRunTimeAnnotationKey = "" then false
    else
      match t.pod with
      | none => false
      | some pod =>
        match pod.annotations.lookup cfg.maxRunTimeAnnotationKey with
        | none => false
        | some value =>
          match pod.startTime with
          | none => false
          | some st =>
            match parseDuration value with
            | none => false
            | some d => if d ≤ 0 then false else decide (st + d ≤ now)

/-- compareTasks walks the configured sort order; the priority key ranks
higher priority first, the creationTime key ranks earlier non-zero
timestamps first and defers on zero or equal timestamps; an unrecognised
key is skipped. -/
def compareTasksBy : List String → TaskInfo → TaskInfo → Int
  | [], _, _ => 0
  | o :: rest, l, r =>
    if o = SortByPriority then
      if r.priority < l.priority then -1
      else if l.priority < r.priority then 1
      else compareTasksBy rest l r
    else if o = SortByCreationTime then
      if getTaskCreationTime (some l) ≠ 0 && getTaskCreationTime (some r) ≠ 0 &&
          getTaskCreationTime (some l) ≠ getTaskCreationTime (some r) then
        if getTaskCreationTime (some l) < getTaskCreationTime (some r) then -1 else 1
      else compareTasksBy rest l r
    else compareTasksBy rest l r

/-- compareTasks of the ex-priority plugin over its configured sortOrder. -/
def compareTasks (cfg : ExConfig) (l r : TaskInfo) : Int :=
  compareTasksBy cfg.sortOrder l r

/-- compareJobs walks the configured sort order over job priority and job
creation timestamp; zero timestamps defer to the next key. -/
def compareJobsBy : List String → JobInfo → JobInfo → Int
  | [], _, _ => 0
  | o :: rest, l, r =>
    if o = SortByPriority then
      if r.priority < l.priority then -1
      else if l.priority < r.priority then 1
      else compareJobsBy rest l r
    else if o = SortByCreationTime then
      if l.creationTimestamp ≠ 0 && r.creationTimestamp ≠ 0 then
        if l.creationTimestamp < r.creationTimestamp then -1
        else if r.creationTimestamp < l.creationTimestamp then 1
        else compareJobsBy rest l r
      else compareJobsBy rest l r
    else compareJobsBy rest l r

/-- compareJobs of the ex-priority plugin over its configured sortOrder. -/
def compareJobs (cfg : ExConfig) (l r : JobInfo) : Int :=
  compareJobsBy cfg.sortOrder l r

/-- The fields of api.SubJobInfo that ex-priority reads. -/
structure SubJobInfo where
  uid : String
  priority : Int
  deriving Repr, DecidableEq

/-- compareSubJobs compares sub-jobs by priority only: the switch has no
creationTime case because SubJobInfo has no creation timestamp. -/
def compareSubJobsBy : List String → SubJobInfo → SubJobInfo → Int
  | [], _, _ => 0
  | o :: rest, l, r =>
    if o = SortByPriority then
      if r.priority < l.priority then -1
      else if l.priority < r.priority then 1
      else compareSubJobsBy rest l r
    else compareSubJobsBy rest l r

/-- compareSubJobs of the ex-priority plugin over its configured sortOrder. -/
def compareSubJobs (cfg : ExConfig) (l r : SubJobInfo) : Int :=
  compareSubJobsBy cfg.sortOrder l r

/-! Claims C7, C8, C9. -/

theorem compareTasksBy_neg (so : List String) (l r : TaskInfo) :
    compareTasksBy so l r = -(compareTasksBy so r l) := by
  induction so with
  | nil => rfl
  | cons o rest ih =>
    simp only [compareTasksBy, Bool.and_eq_true, decide_eq_true_eq]
    split_ifs <;> first | exact ih | omega

theorem compareTasksBy_self (so : List String) (l : TaskInfo) :
    compareTasksBy so l l = 0 := by
  induction so with
  | nil => rfl
  | cons o rest ih =>
    simp only [compareTasksBy, Bool.and_eq_true, decide_eq_true_eq]
    split_ifs <;> first | exact ih | omega

theorem compareJobsBy_neg (so : List String) (l r : JobInfo) :
    compareJobsBy so l r = -(compareJobsBy so r l) := by
  induction so with
  | nil => rfl
  | cons o rest ih =>
    simp only [compareJobsBy, Bool.and_eq_true, decide_eq_true_eq]
    split_ifs <;> first | exact ih | omega

theorem compareJobsBy_self (so : List String) (l : JobInfo) :
    compareJobsBy so l l = 0 := by
  induction so with
  | nil => rfl
  | cons o rest ih =>
    simp only [compareJobsBy, Bool.and_eq_true, decide_eq_true_eq]
    split_ifs <;> first | exact ih | omega

theorem compareSubJobsBy_neg (so : List String) (l r : SubJobInfo) :
    compareSubJobsBy so l r = -(compareSubJobsBy so r l) := by
  induction so with
  | nil => rfl
  | cons o rest ih =>
    simp only [compareSubJobsBy]
    split_ifs <;> first | exact ih | omega

theorem compareSubJobsBy_self (so : List String) (l : SubJobInfo) :
    compareSubJobsBy so l l = 0 := by
  induction so with
  | nil => rfl
  | cons o rest ih =>
    simp only [compareSubJobsBy]
    split_ifs <;> first | exact ih | omega

/-- C9: for every configured sortOrder and all tasks, jobs and sub-jobs L
and R, the ex-priority comparators satisfy
sign(cmp(L,R)) = -sign(cmp(R,L)) and cmp(X,X) = 0. -/
theorem exPriority_comparators_sign_antisymmetric (cfg : ExConfig)
    (tl tr : TaskInfo) (jl jr : JobInfo) (sl sr : SubJobInfo) :
    Int.sign (compareTasks cfg tl tr) = -Int.sign (compareTasks cfg tr tl) ∧
    compareTasks cfg tl tl = 0 ∧
    Int.sign (compareJobs cfg jl jr) = -Int.sign (compareJobs cfg jr jl) ∧
    compareJobs cfg jl jl = 0 ∧
    Int.sign (compareSubJobs cfg sl sr) = -Int.sign (compareSubJobs cfg sr sl) ∧
    compareSubJobs cfg sl sl = 0 := by
  refine ⟨?_, compareTasksBy_self _ _, ?_, compareJobsBy_self _ _, ?_,
    compareSubJobsBy_self _ _⟩
  · rw [compareTasks, compareTasks, compareTasksBy_neg, Int.sign_neg]
  · rw [compareJobs, compareJobs, compareJobsBy_neg, Int.sign_neg]
  · rw [compareSubJobs, compareSubJobs, compareSubJobsBy_neg, Int.sign_neg]

/-- C7: a nil selector and a selector with zero expressions match no
priority; a selector matches exactly when at least one of its expressions
matches (logical OR). -/
theorem prioritySelector_matches_spec :
    (∀ p : Int, PrioritySelector.Matches none p = false) ∧
    (∀ p : Int, PrioritySelector.Matches (some (PrioritySelector.mk [])) p = false) ∧
    (∀ (s : PrioritySelector) (p : Int),
      PrioritySelector.Matches (some s) p = true ↔
        ∃ e ∈ s.anyExpressions, e.Matches p = true) := by
  refine ⟨fun p => rfl, fun p => rfl, fun s p => ?_⟩
  by_cases h : s.anyExpressions = []
  · simp [PrioritySelector.Matches, h]
  · simp [PrioritySelector.Matches, List.length_eq_zero, h, List.any_eq_true]

/-- C8: for a ≤ b, a Between expression with values [a, b] matches p
exactly when a ≤ p ≤ b, and a Between expression with values [b, a]
matches exactly the same priorities (the bounds are normalised so the
smaller is the lower inclusive bound). -/
theorem between_normalised_bounds (a b p : Int) :
    (a ≤ b →
      (PriorityExpression.Matches ⟨OperatorBetween, [a, b]⟩ p = true ↔ a ≤ p ∧ p ≤ b)) ∧
    PriorityExpression.Matches ⟨OperatorBetween, [b, a]⟩ p =
      PriorityExpression.Matches ⟨OperatorBetween, [a, b]⟩ p := by
  constructor
  · intro hab
    simp only [PriorityExpression.Matches, OperatorBetween, OperatorIn, OperatorNotIn,
      String.reduceEq, if_false, reduceIte, List.getD, List.length_cons]
    norm_num
    split_ifs <;> (try simp only [Bool.and_eq_true, decide_eq_true_eq]) <;> omega
  · simp only [PriorityExpression.Matches, OperatorBetween, OperatorIn, OperatorNotIn,
      String.reduceEq, if_false, reduceIte, List.getD, List.length_cons]
    norm_num
    split_ifs <;>
      first
        | rfl
        | (exfalso; omega)
        | (have hab : a = b := by omega
           subst hab
           rfl)

/-- Witness for C8 at a = 1, b = 3, p = 2. -/
theorem between_normalised_bounds_witness :
    ((1 : Int) ≤ 3 →
      (PriorityExpression.Matches ⟨OperatorBetween, [1, 3]⟩ 2 = true ↔
        (1 : Int) ≤ 2 ∧ (2 : Int) ≤ 3)) ∧
    PriorityExpression.Matches ⟨OperatorBetween, [3, 1]⟩ 2 =
      PriorityExpression.Matches ⟨OperatorBetween, [1, 3]⟩ 2 :=
  between_normalised_bounds 1 3 2

/-! Claim C1: the ex-priority preemptableFn. The session job map
ssn.Jobs is a function from job id to Option JobInfo; a missing entry is
a nil pointer, and dereferencing it is a panic, modelled as none. -/

/-- One iteration of the preemptableFn loop body for a candidate victim v
with job lookup vjOpt, given the preemptor and its job lookup pjOpt:
some true means v is added to the victims, some false means v is skipped,
none means the iteration dereferences a nil job pointer (panic). The
victim job pointer is dereferenced on every path (log arguments included),
the preemptor job pointer only at the job-identity comparison. -/
def preempteeAllowed (cfg : ExConfig) (preemptor : TaskInfo) (pjOpt : Option JobInfo)
    (now : Int) (v : TaskInfo) (vjOpt : Option JobInfo) : Option Bool :=
  match vjOpt with
  | none => none
  | some vj =>
    if isTaskTimedOut cfg (some v) now then some true
    else if cfg.preemptible.isSome && !(PrioritySelector.Matches cfg.preemptible vj.priority) then
      some false
    else
      match pjOpt with
      | none => none
      | some pj =>
        if vj.uid ≠ pj.uid then some (decide (vj.priority < pj.priority))
        else some (decide (v.priority < preemptor.priority))

/-- The victims accumulated by the preemptableFn loop, in input order;
none when some iteration panics. -/
def preemptVictims (cfg : ExConfig) (jobs : String → Option JobInfo)
    (preemptor : TaskInfo) (now : Int) : List TaskInfo → Option (List TaskInfo)
  | [] => some []
  | v :: rest =>
    match preempteeAllowed cfg preemptor (jobs preemptor.job) now v (jobs v.job) with
    | none => none
    | some b =>
      match preemptVictims cfg jobs preemptor now rest with
      | none => none
      | some vs => some (if b then v :: vs else vs)

/-- preemptableFn returns the victims subset together with Permit;
none models a panic inside the loop. -/
def preemptableFn (cfg : ExConfig) (jobs : String → Option JobInfo)
    (preemptor : TaskInfo) (preemptees : List TaskInfo) (now : Int) :
    Option (List TaskInfo × Int) :=
  match preemptVictims cfg jobs preemptor now preemptees with
  | none => none
  | some vs => some (vs, Permit)

/-- The timed-out condition in the words of the spec: the pod carries the
configured max-run-time annotation (the key is configured), the value
parses as a positive duration, the pod has a start time, and
startTime + duration has reached now. -/
def SpecTimedOut (cfg : ExConfig) (v : TaskInfo) (now : Int) : Prop :=
  cfg.maxRunTimeAnnotationKey ≠ "" ∧
  ∃ pod, v.pod = some pod ∧
    ∃ d, pod.annotations.lookup cfg.maxRunTimeAnnotationKey = some (DurStr.valid d) ∧
      0 < d ∧
      ∃ st, pod.startTime = some st ∧ st + d ≤ now

/-- The eligibility table of spec section 4.3, in the spec's words: a
victim is eligible when it is timed out, or else the preemptible selector
(when set) matches its job priority and its job priority (for a different
job) or its task priority (for the same job) is strictly below the
preemptor's. -/
def SpecEligible (cfg : ExConfig) (T : TaskInfo) (Tjob : JobInfo) (now : Int)
    (v : TaskInfo) (vjob : JobInfo) : Prop :=
  SpecTimedOut cfg v now ∨
  ((cfg.preemptible = none ∨ PrioritySelector.Matches cfg.preemptible vjob.priority = true) ∧
   ((vjob.uid ≠ Tjob.uid ∧ vjob.priority < Tjob.priority) ∨
    (vjob.uid = Tjob.uid ∧ v.priority < T.priority)))

theorem isTaskTimedOut_iff (cfg : ExConfig) (v : TaskInfo) (now : Int) :
    isTaskTimedOut cfg (some v) now = true ↔ SpecTimedOut cfg v now := by
  by_cases hk : cfg.maxRunTimeAnnotationKey = ""
  · simp [isTaskTimedOut, SpecTimedOut, hk]
  · cases hpod : v.pod with
    | none => simp [isTaskTimedOut, SpecTimedOut, hk, hpod]
    | some pod =>
      cases hl : pod.annotations.lookup cfg.maxRunTimeAnnotationKey with
      | none => simp [isTaskTimedOut, SpecTimedOut, hk, hpod, hl]
      | some value =>
        cases value with
        | invalid =>
          cases hst : pod.startTime <;>
            simp [isTaskTimedOut, SpecTimedOut, hk, hpod, hl, hst, parseDuration]
        | valid d =>
          cases hst : pod.startTime with
          | none => simp [isTaskTimedOut, SpecTimedOut, hk, hpod, hl, hst, parseDuration]
          | some st =>
            by_cases hd : d ≤ 0
            · have hfalse : isTaskTimedOut cfg (some v) now = false := by
                simp [isTaskTimedOut, hk, hpod, hl, hst, parseDuration, hd]
              rw [hfalse]
              simp only [Bool.false_eq_true, false_iff, SpecTimedOut]
              rintro ⟨-, pod2, hpod2, d2, hl2, hd2, st2, hst2, hle⟩
              rw [hpod] at hpod2
              injection hpod2 with hpe
              subst hpe
              rw [hl] at hl2
              injection hl2 with hde
              injection hde with hde
              omega
            · have heq : isTaskTimedOut cfg (some v) now = decide (st + d ≤ now) := by
                simp [isTaskTimedOut, hk, hpod, hl, hst, parseDuration, hd]
              rw [heq]
              constructor
              · intro h
                exact ⟨hk, pod, hpod, d, hl, by omega, st, hst, by simpa using h⟩
              · rintro ⟨-, pod2, hpod2, d2, hl2, -, st2, hst2, hle⟩
                rw [hpod] at hpod2
                injection hpod2 with hpe
                subst hpe
                rw [hl] at hl2
                injection hl2 with hde
                injection hde with hde
                subst hde
                rw [hst] at hst2
                injection hst2 with hse
                subst hse
                simpa using hle

theorem preempteeAllowed_spec (cfg : ExConfig) (T v : TaskInfo) (Tjob vjob : JobInfo)
    (now : Int) :
    ∃ b, preempteeAllowed cfg T (some Tjob) now v (some vjob) = some b ∧
      (b = true ↔ SpecEligible cfg T Tjob now v vjob) := by
  unfold preempteeAllowed
  by_cases hto : isTaskTimedOut cfg (some v) now = true
  · refine ⟨true, by simp [hto], ?_⟩
    simp only [true_iff]
    exact Or.inl ((isTaskTimedOut_iff cfg v now).mp hto)
  · have hto' : isTaskTimedOut cfg (some v) now = false := by
      cases h : isTaskTimedOut cfg (some v) now
      · rfl
      · exact absurd h hto
    have hnts : ¬ SpecTimedOut cfg v now := fun hs =>
      hto ((isTaskTimedOut_iff cfg v now).mpr hs)
    cases hpre : cfg.preemptible with
    | none =>
      by_cases huid : vjob.uid = Tjob.uid
      · refine ⟨decide (v.priority < T.priority), by simp [hto', hpre, huid], ?_⟩
        simp [SpecEligible, hnts, hpre, huid]
      · refine ⟨decide (vjob.priority < Tjob.priority), by simp [hto', hpre, huid], ?_⟩
        simp [SpecEligible, hnts, hpre, huid]
    | some sel =>
      by_cases hm : PrioritySelector.Matches (some sel) vjob.priority = true
      · by_cases huid : vjob.uid = Tjob.uid
        · refine ⟨decide (v.priority < T.priority), by simp [hto', hpre, hm, huid], ?_⟩
          simp [SpecEligible, hnts, hpre, hm, huid]
        · refine ⟨decide (vjob.priority < Tjob.priority), by simp [hto', hpre, hm, huid], ?_⟩
          simp [SpecEligible, hnts, hpre, hm, huid]
      · have hm' : PrioritySelector.Matches (some sel) vjob.priority = false := by
          cases h : PrioritySelector.Matches (some sel) vjob.priority
          · rfl
          · exact absurd h hm
        refine ⟨false, by simp [hto', hpre, hm'], ?_⟩
        simp [SpecEligible, hnts, hpre, hm']

theorem preemptVictims_spec (cfg : ExConfig) (jobs : String → Option JobInfo)
    (T : TaskInfo) (now : Int) (Tjob : JobInfo) (hT : jobs T.job = some Tjob) :
    ∀ l : List TaskInfo, (∀ v ∈ l, (jobs v.job).isSome = true) →
      ∃ vs, preemptVictims cfg jobs T now l = some vs ∧
        (∀ v ∈ vs, v ∈ l) ∧
        (∀ v ∈ l, ∀ vjob, jobs v.job = some vjob →
          (v ∈ vs ↔ SpecEligible cfg T Tjob now v vjob)) := by
  intro l
  induction l with
  | nil => intro _; exact ⟨[], rfl, by simp, by simp⟩
  | cons v rest ih =>
    intro hall
    obtain ⟨vjob, hvj⟩ := Option.isSome_iff_exists.mp (hall v (by simp))
    obtain ⟨b, hb, hbiff⟩ := preempteeAllowed_spec cfg T v Tjob vjob now
    obtain ⟨vs, hvs, hsub, hmem⟩ := ih (fun x hx => hall x (by simp [hx]))
    have hstep : preemptVictims cfg jobs T now (v :: rest) =
        some (if b then v :: vs else vs) := by
      simp only [preemptVictims, hT, hvj, hb, hvs]
    cases b with
    | true =>
      have helig : SpecEligible cfg T Tjob now v vjob := hbiff.mp rfl
      simp only [if_true] at hstep
      refine ⟨v :: vs, hstep, ?_, ?_⟩
      · intro x hx
        rcases List.mem_cons.mp hx with h | h
        · simp [h]
        · simp [hsub x h]
      · intro x hx vjob2 hvj2
        by_cases hxv : x = v
        · subst hxv
          have hveq : vjob2 = vjob := by
            rw [hvj] at hvj2
            injection hvj2 with h
            exact h.symm
          subst hveq
          exact iff_of_true (List.mem_cons_self _ _) helig
        · have hxr : x ∈ rest := by
            rcases List.mem_cons.mp hx with h | h
            · exact absurd h hxv
            · exact h
          have hiff := hmem x hxr vjob2 hvj2
          constructor
          · intro hxm
            rcases List.mem_cons.mp hxm with h | h
            · exact absurd h hxv
            · exact hiff.mp h
          · intro hs
            exact List.mem_cons_of_mem _ (hiff.mpr hs)
    | false =>
      have hnel : ¬ SpecEligible cfg T Tjob now v vjob := fun hs => by
        simpa using hbiff.mpr hs
      simp only [if_false] at hstep
      refine ⟨vs, hstep, ?_, ?_⟩
      · intro x hx
        exact List.mem_cons_of_mem _ (hsub x hx)
      · intro x hx vjob2 hvj2
        by_cases hxv : x = v
        · subst hxv
          have hveq : vjob2 = vjob := by
            rw [hvj] at hvj2
            injection hvj2 with h
            exact h.symm
          subst hveq
          refine iff_of_false (fun hxvs => ?_) hnel
          exact hnel ((hmem x (hsub x hxvs) vjob2 hvj2).mp hxvs)
        · have hxr : x ∈ rest := by
            rcases List.mem_cons.mp hx with h | h
            · exact absurd h hxv
            · exact h
          exact hmem x hxr vjob2 hvj2

/-- C1: for every preemptor T and candidate list V whose job ids resolve
in the session job map, preemptableFn returns with Permit a subset of V,
and a candidate is a victim exactly when the section 4.3 eligibility
table holds: timed out, or else the preemptible selector (when set)
matches its job priority and its job (different job) or task (same job)
priority is strictly below the preemptor's. -/
theorem preemptableFn_victims_spec (cfg : ExConfig) (jobs : String → Option JobInfo)
    (T : TaskInfo) (preemptees : List TaskInfo) (now : Int) (Tjob : JobInfo)
    (hT : jobs T.job = some Tjob)
    (hv : ∀ v ∈ preemptees, (jobs v.job).isSome = true) :
    ∃ victims, preemptableFn cfg jobs T preemptees now = some (victims, Permit) ∧
      (∀ v ∈ victims, v ∈ preemptees) ∧
      (∀ v ∈ preemptees, ∀ vjob, jobs v.job = some vjob →
        (v ∈ victims ↔ SpecEligible cfg T Tjob now v vjob)) := by
  obtain ⟨vs, hvs, hsub, hmem⟩ := preemptVictims_spec cfg jobs T now Tjob hT preemptees hv
  exact ⟨vs, by simp [preemptableFn, hvs], hsub, hmem⟩

/-- Concrete ex-priority configuration for witnesses: a preemptible
selector admitting priorities at most 10 and a configured max-run-time
annotation key. -/
def exCfgW : ExConfig :=
  { sortOrder := [SortByPriority]
    preemptible := some ⟨[⟨OperatorLte, [10]⟩]⟩
    reclaimable := none
    blocking := none
    blockingScope := BlockingScopeQueue
    maxRunTimeAnnotationKey := "max-run-time" }

/-- Concrete preemptor job for witnesses. -/
def TjobW : JobInfo := ⟨"jT", "q1", 100, 5, false⟩

/-- Concrete victim job for witnesses. -/
def VjobW : JobInfo := ⟨"jV", "q1", 5, 3, false⟩

/-- Concrete session job map for witnesses. -/
def jobsW : String → Option JobInfo :=
  fun u => if u = "jT" then some TjobW else if u = "jV" then some VjobW else none

/-- Concrete preemptor task for witnesses. -/
def taskTW : TaskInfo := ⟨"jT", 50, none⟩

/-- Concrete victim task for witnesses, with a max-run-time annotation of
10 nanoseconds and a start time of 0. -/
def taskVW : TaskInfo := ⟨"jV", 1, some ⟨[("max-run-time", DurStr.valid 10)], some 0, 0⟩⟩

/-- Witness for C1 at the concrete session above with now = 100. -/
theorem preemptableFn_victims_spec_witness :
    ∃ victims, preemptableFn exCfgW jobsW taskTW [taskVW] 100 = some (victims, Permit) ∧
      (∀ v ∈ victims, v ∈ [taskVW]) ∧
      (∀ v ∈ [taskVW], ∀ vjob, jobsW v.job = some vjob →
        (v ∈ victims ↔ SpecEligible exCfgW taskTW TjobW 100 v vjob)) :=
  preemptableFn_victims_spec exCfgW jobsW taskTW [taskVW] 100 TjobW (by decide)
    (by decide)

/-! Claim C2: head-of-line blocking at enqueue. The session's job
collection is a list of the (non-nil) jobs the loop ranges over. -/

/-- The loop body of hasBlockingJobAhead for one job: skip non-pending
jobs, skip the current job itself (by UID), skip jobs in another queue
when the scope is queue, and otherwise require the blocking selector to
match and the job's priority to be strictly greater. -/
def blockingCandidate (cfg : ExConfig) (cur job : JobInfo) : Bool :=
  if !job.isPending then false
  else if job.uid = cur.uid then false
  else if cfg.blockingScope = BlockingScopeQueue && job.queue ≠ cur.queue then false
  else PrioritySelector.Matches cfg.blocking job.priority && decide (cur.priority < job.priority)

/-- hasBlockingJobAhead returns false when no blocking selector is
configured, else reports whether some session job passes the skip chain. -/
def hasBlockingJobAhead (cfg : ExConfig) (ssnJobs : List JobInfo) (cur : JobInfo) : Bool :=
  match cfg.blocking with
  | none => false
  | some _ => ssnJobs.any (blockingCandidate cfg cur)

/-- jobEnqueueableFn (registered only when blocking is configured):
Permit for jobs whose own priority matches blocking, Reject when a
blocking job is ahead, else Abstain. -/
def jobEnqueueableFn (cfg : ExConfig) (ssnJobs : List JobInfo) (job : JobInfo) : Int :=
  if PrioritySelector.Matches cfg.blocking job.priority then Permit
  else if hasBlockingJobAhead cfg ssnJobs job then Reject
  else Abstain

theorem blockingCandidate_iff (cfg : ExConfig) (cur job : JobInfo) (sel : PrioritySelector)
    (hb : cfg.blocking = some sel) :
    blockingCandidate cfg cur job = true ↔
      (job.isPending = true ∧ job.uid ≠ cur.uid ∧
       (cfg.blockingScope = BlockingScopeQueue → job.queue = cur.queue) ∧
       PrioritySelector.Matches (some sel) job.priority = true ∧
       cur.priority < job.priority) := by
  unfold blockingCandidate
  rw [hb]
  by_cases hp : job.isPending = true
  · by_cases huid : job.uid = cur.uid
    · simp [hp, huid]
    · by_cases hsc : cfg.blockingScope = BlockingScopeQueue
      · by_cases hq : job.queue = cur.queue
        · simp [hp, huid, hsc, hq]
        · simp [hp, huid, hsc, hq]
      · simp [hp, huid, hsc]
  · have hp' : job.isPending = false := by
      cases h : job.isPending
      · rfl
      · exact absurd h hp
    simp [hp']

theorem hasBlockingJobAhead_iff (cfg : ExConfig) (ssnJobs : List JobInfo) (cur : JobInfo)
    (sel : PrioritySelector) (hb : cfg.blocking = some sel) :
    hasBlockingJobAhead cfg ssnJobs cur = true ↔
      ∃ job ∈ ssnJobs, job.isPending = true ∧ job.uid ≠ cur.uid ∧
        (cfg.blockingScope = BlockingScopeQueue → job.queue = cur.queue) ∧
        PrioritySelector.Matches (some sel) job.priority = true ∧
        cur.priority < job.priority := by
  simp only [hasBlockingJobAhead, hb, List.any_eq_true]
  constructor
  · rintro ⟨job, hjm, hc⟩
    exact ⟨job, hjm, (blockingCandidate_iff cfg cur job sel hb).mp hc⟩
  · rintro ⟨job, hjm, hc⟩
    exact ⟨job, hjm, (blockingCandidate_iff cfg cur job sel hb).mpr hc⟩

/-- C2: with a blocking selector configured, a job whose own priority
matches is always permitted; otherwise the job is rejected exactly when
some other pending job matches blocking with strictly greater priority,
restricted to the same queue in queue scope (jobs of other queues are
never considered) and unrestricted in cluster scope; otherwise the
callback abstains. -/
theorem jobEnqueueableFn_blocking_spec (cfg : ExConfig) (ssnJobs : List JobInfo)
    (J : JobInfo) (sel : PrioritySelector) (hb : cfg.blocking = some sel) :
    (PrioritySelector.Matches (some sel) J.priority = true →
      jobEnqueueableFn cfg ssnJobs J = Permit) ∧
    (PrioritySelector.Matches (some sel) J.priority = false →
      ((jobEnqueueableFn cfg ssnJobs J = Reject ↔
         ∃ job ∈ ssnJobs, job.isPending = true ∧ job.uid ≠ J.uid ∧
           (cfg.blockingScope = BlockingScopeQueue → job.queue = J.queue) ∧
           PrioritySelector.Matches (some sel) job.priority = true ∧
           J.priority < job.priority) ∧
       (jobEnqueueableFn cfg ssnJobs J ≠ Reject →
         jobEnqueueableFn cfg ssnJobs J = Abstain))) := by
  constructor
  · intro hm
    simp [jobEnqueueableFn, hb, hm]
  · intro hm
    have h1 : jobEnqueueableFn cfg ssnJobs J =
        (if hasBlockingJobAhead cfg ssnJobs J then Reject else Abstain) := by
      simp [jobEnqueueableFn, hb, hm]
    constructor
    · rw [h1]
      cases hh : hasBlockingJobAhead cfg ssnJobs J
      · rw [if_neg (by simp)]
        refine iff_of_false (by decide) (fun hex => ?_)
        rw [(hasBlockingJobAhead_iff cfg ssnJobs J sel hb).mpr hex] at hh
        exact Bool.noConfusion hh
      · rw [if_pos rfl]
        exact iff_of_true rfl ((hasBlockingJobAhead_iff cfg ssnJobs J sel hb).mp hh)
    · rw [h1]
      cases hh : hasBlockingJobAhead cfg ssnJobs J
      · intro _
        rw [if_neg (by simp)]
      · intro hne
        exact absurd (if_pos rfl) hne

/-- Blocking selector for the C2 witness: priorities at least 100. -/
def selBlockW : PrioritySelector := ⟨[⟨OperatorGte, [100]⟩]⟩

/-- ex-priority configuration for the C2 witness: blocking in queue scope. -/
def exCfgBW : ExConfig :=
  { sortOrder := [SortByPriority]
    preemptible := none
    reclaimable := none
    blocking := some selBlockW
    blockingScope := BlockingScopeQueue
    maxRunTimeAnnotationKey := "" }

/-- Pending high-priority job for the C2 witness. -/
def jobAW : JobInfo := ⟨"jA", "q1", 150, 1, true⟩

/-- Pending low-priority job for the C2 witness. -/
def jobBW : JobInfo := ⟨"jB", "q1", 10, 2, true⟩

/-- Witness for C2: queue-scope blocking with a pending priority-150 job
and a priority-10 job in the same queue. -/
theorem jobEnqueueableFn_blocking_spec_witness :
    (PrioritySelector.Matches (some selBlockW) jobBW.priority = true →
      jobEnqueueableFn exCfgBW [jobAW, jobBW] jobBW = Permit) ∧
    (PrioritySelector.Matches (some selBlockW) jobBW.priority = false →
      ((jobEnqueueableFn exCfgBW [jobAW, jobBW] jobBW = Reject ↔
         ∃ job ∈ [jobAW, jobBW], job.isPending = true ∧ job.uid ≠ jobBW.uid ∧
           (exCfgBW.blockingScope = BlockingScopeQueue → job.queue = jobBW.queue) ∧
           PrioritySelector.Matches (some selBlockW) job.priority = true ∧
           jobBW.priority < job.priority) ∧
       (jobEnqueueableFn exCfgBW [jobAW, jobBW] jobBW ≠ Reject →
         jobEnqueueableFn exCfgBW [jobAW, jobBW] jobBW = Abstain))) :=
  jobEnqueueableFn_blocking_spec exCfgBW [jobAW, jobBW] jobBW selBlockW rfl

/-! Claims C3 and C5: the time-priority plugin. Rules are the parsed
configuration: parseArguments guarantees a positive threshold and a
non-nil source selector and sorts rules by descending threshold. -/

/-- EscalationRule after parsing: threshold in nanoseconds, a (non-nil)
source selector, a target priority. -/
structure EscalationRule where
  waitingThreshold : Int
  sourcePriority : PrioritySelector
  targetPriority : Int
  deriving Repr, DecidableEq

/-- getWaitingDuration: how long the job has been waiting; 0 for a nil
job or a zero creation timestamp. -/
def getWaitingDuration (job : Option JobInfo) (now : Int) : Int :=
  match job with
  | none => 0
  | some j => if j.creationTimestamp = 0 then 0 else now - j.creationTimestamp

/-- The rule loop of OnSessionOpen for one job and a precomputed waiting
duration: the first rule (in list order) whose threshold is at most the
waiting duration and whose source selector matches the current priority
rewrites the priority and stops; other rules fall through. -/
def applyRules : List EscalationRule → Int → JobInfo → JobInfo
  | [], _, job => job
  | rule :: rest, w, job =>
    if rule.waitingThreshold ≤ w then
      if PrioritySelector.Matches (some rule.sourcePriority) job.priority then
        { job with priority := rule.targetPriority }
      else applyRules rest w job
    else applyRules rest w job

/-- The per-job effect of the time-priority session-open pass. -/
def escalateJob (rules : List EscalationRule) (now : Int) (job : JobInfo) : JobInfo :=
  applyRules rules (getWaitingDuration (some job) now) job

/-- The whole session-open pass of time-priority: with no rules the pass
returns immediately, and nil jobs are skipped by the loop. -/
def timePriorityOnSessionOpen (rules : List EscalationRule) (now : Int)
    (jobs : List (Option JobInfo)) : List (Option JobInfo) :=
  if rules.length = 0 then jobs
  else jobs.map fun j =>
    match j with
    | none => none
    | some job => some (escalateJob rules now job)

/-- A rule is eligible for waiting duration w and priority p when its
threshold is at most w and its source selector matches p. -/
def RuleEligible (w p : Int) (r : EscalationRule) : Prop :=
  r.waitingThreshold ≤ w ∧ PrioritySelector.Matches (some r.sourcePriority) p = true

/-- The parseArguments invariant: rules sorted by descending threshold. -/
def RulesSortedDesc (rules : List EscalationRule) : Prop :=
  rules.Pairwise (fun a b => b.waitingThreshold ≤ a.waitingThreshold)

theorem applyRules_of_no_eligible (w : Int) (J : JobInfo) :
    ∀ rules : List EscalationRule,
      (∀ r ∈ rules, ¬ RuleEligible w J.priority r) → applyRules rules w J = J := by
  intro rules
  induction rules with
  | nil => intro _; rfl
  | cons r rest ih =>
    intro h
    by_cases ht : r.waitingThreshold ≤ w
    · by_cases hm : PrioritySelector.Matches (some r.sourcePriority) J.priority = true
      · exact absurd ⟨ht, hm⟩ (h r (List.mem_cons_self _ _))
      · simp only [applyRules, if_pos ht, hm, Bool.false_eq_true, if_neg, if_false]
        exact ih fun r2 hr2 => h r2 (List.mem_cons_of_mem _ hr2)
    · simp only [applyRules, if_neg ht]
      exact ih fun r2 hr2 => h r2 (List.mem_cons_of_mem _ hr2)

theorem applyRules_selects (w : Int) (J : JobInfo) (r0 : EscalationRule)
    (he : RuleEligible w J.priority r0) :
    ∀ rules : List EscalationRule, RulesSortedDesc rules → r0 ∈ rules →
      (∀ r ∈ rules, RuleEligible w J.priority r →
        r = r0 ∨ r.waitingThreshold < r0.waitingThreshold) →
      applyRules rules w J = { J with priority := r0.targetPriority } := by
  intro rules
  induction rules with
  | nil => intro _ h _; cases h
  | cons r rest ih =>
    intro hs hr0 hmax
    obtain ⟨hhead, htail⟩ := List.pairwise_cons.mp hs
    by_cases ht : r.waitingThreshold ≤ w
    · by_cases hm : PrioritySelector.Matches (some r.sourcePriority) J.priority = true
      · rcases hmax r (List.mem_cons_self _ _) ⟨ht, hm⟩ with heq | hlt
        · subst heq
          simp [applyRules, ht, hm]
        · rcases List.mem_cons.mp hr0 with h0 | h0
          · subst h0
            exact absurd hlt (lt_irrefl _)
          · exact absurd hlt (not_lt.mpr (hhead r0 h0))
      · have hr0rest : r0 ∈ rest := by
          rcases List.mem_cons.mp hr0 with h0 | h0
          · subst h0
            exact absurd he.2 hm
          · exact h0
        simp only [applyRules, if_pos ht, hm, Bool.false_eq_true, if_false]
        exact ih htail hr0rest fun r2 hr2 he2 => hmax r2 (List.mem_cons_of_mem _ hr2) he2
    · have hr0rest : r0 ∈ rest := by
        rcases List.mem_cons.mp hr0 with h0 | h0
        · subst h0
          exact absurd he.1 ht
        · exact h0
      simp only [applyRules, if_neg ht]
      exact ih htail hr0rest fun r2 hr2 he2 => hmax r2 (List.mem_cons_of_mem _ hr2) he2

/-- C3: with rules sorted by descending threshold, the session-open pass
leaves a job untouched when no rule is eligible for its waiting duration
and pre-escalation priority, and otherwise rewrites exactly the priority,
to the target of the unique eligible rule of greatest threshold; the
waiting duration is 0 for a nil job or a zero creation timestamp. -/
theorem timePriority_rule_selection (rules : List EscalationRule) (now : Int)
    (J : JobInfo) (hs : RulesSortedDesc rules) :
    ((∀ r ∈ rules, ¬ RuleEligible (getWaitingDuration (some J) now) J.priority r) →
      escalateJob rules now J = J) ∧
    (∀ r0 ∈ rules, RuleEligible (getWaitingDuration (some J) now) J.priority r0 →
      (∀ r ∈ rules, RuleEligible (getWaitingDuration (some J) now) J.priority r →
        r = r0 ∨ r.waitingThreshold < r0.waitingThreshold) →
      escalateJob rules now J = { J with priority := r0.targetPriority }) ∧
    getWaitingDuration none now = 0 ∧
    (∀ j : JobInfo, getWaitingDuration (some { j with creationTimestamp := 0 }) now = 0) := by
  refine ⟨?_, ?_, rfl, fun j => rfl⟩
  · intro h
    exact applyRules_of_no_eligible _ J rules h
  · intro r0 hr0 he hmax
    exact applyRules_selects _ J r0 he rules hs hr0 hmax

/-- Escalation rules for the C3 witness: descending thresholds 20 and 10,
both with source priority at most 50. -/
def rulesW : List EscalationRule :=
  [⟨20, ⟨[⟨OperatorLte, [50]⟩]⟩, 200⟩, ⟨10, ⟨[⟨OperatorLte, [50]⟩]⟩, 100⟩]

/-- Job for the C3 witness: priority 10, created at time 5. -/
def jobW3 : JobInfo := ⟨"j3", "q1", 10, 5, true⟩

/-- Witness for C3 at now = 15 (waiting duration 10: the threshold-10
rule is the unique eligible rule of greatest threshold). -/
theorem timePriority_rule_selection_witness :
    ((∀ r ∈ rulesW, ¬ RuleEligible (getWaitingDuration (some jobW3) 15) jobW3.priority r) →
      escalateJob rulesW 15 jobW3 = jobW3) ∧
    (∀ r0 ∈ rulesW, RuleEligible (getWaitingDuration (some jobW3) 15) jobW3.priority r0 →
      (∀ r ∈ rulesW, RuleEligible (getWaitingDuration (some jobW3) 15) jobW3.priority r →
        r = r0 ∨ r.waitingThreshold < r0.waitingThreshold) →
      escalateJob rulesW 15 jobW3 = { jobW3 with priority := r0.targetPriority }) ∧
    getWaitingDuration none 15 = 0 ∧
    (∀ j : JobInfo, getWaitingDuration (some { j with creationTimestamp := 0 }) 15 = 0) :=
  timePriority_rule_selection rulesW 15 jobW3
    (by norm_num [RulesSortedDesc, rulesW, List.pairwise_cons])

theorem applyRules_priority_mono (w : Int)
    (rules : List EscalationRule)
    (hesc : ∀ r ∈ rules, ∀ p : Int,
      PrioritySelector.Matches (some r.sourcePriority) p = true → p ≤ r.targetPriority) :
    ∀ J : JobInfo, J.priority ≤ (applyRules rules w J).priority := by
  induction rules with
  | nil => intro J; exact le_refl _
  | cons r rest ih =>
    intro J
    by_cases ht : r.waitingThreshold ≤ w
    · by_cases hm : PrioritySelector.Matches (some r.sourcePriority) J.priority = true
      · simp only [applyRules, if_pos ht, hm, if_true]
        exact hesc r (List.mem_cons_self _ _) J.priority hm
      · simp only [applyRules, if_pos ht, hm, Bool.false_eq_true, if_false]
        exact ih (fun r2 hr2 => hesc r2 (List.mem_cons_of_mem _ hr2)) J
    · simp only [applyRules, if_neg ht]
      exact ih (fun r2 hr2 => hesc r2 (List.mem_cons_of_mem _ hr2)) J

/-- C5 as amended: when every rule's target priority is at least every
priority its source selector matches (escalation never lowers), the
priority of a job is non-decreasing through two successive session-open
passes at monotonically increasing times. -/
theorem timePriority_nondecreasing_of_escalating_targets (rules : List EscalationRule)
    (J : JobInfo) (now1 now2 : Int) (hmono : now1 ≤ now2)
    (hesc : ∀ r ∈ rules, ∀ p : Int,
      PrioritySelector.Matches (some r.sourcePriority) p = true → p ≤ r.targetPriority) :
    J.priority ≤ (escalateJob rules now1 J).priority ∧
    (escalateJob rules now1 J).priority ≤
      (escalateJob rules now2 (escalateJob rules now1 J)).priority := by
  exact ⟨applyRules_priority_mono _ rules hesc J,
    applyRules_priority_mono _ rules hesc (escalateJob rules now1 J)⟩

/-- Single escalation rule for the C5 witness: waiting 1, priority 10
promoted to 100. -/
def rulesW5 : List EscalationRule := [⟨1, ⟨[⟨OperatorIn, [10]⟩]⟩, 100⟩]

/-- Job for the C5 witness. -/
def jobW5 : JobInfo := ⟨"j5", "q1", 10, 1, true⟩

/-- Witness for the amended C5 at now1 = 2 and now2 = 3. -/
theorem timePriority_nondecreasing_witness :
    jobW5.priority ≤ (escalateJob rulesW5 2 jobW5).priority ∧
    (escalateJob rulesW5 2 jobW5).priority ≤
      (escalateJob rulesW5 3 (escalateJob rulesW5 2 jobW5)).priority :=
  timePriority_nondecreasing_of_escalating_targets rulesW5 jobW5 2 3 (by norm_num)
    (by
      intro r hr p hm
      simp only [rulesW5, List.mem_singleton] at hr
      subst hr
      simp [PrioritySelector.Matches, PriorityExpression.Matches, OperatorIn] at hm
      subst hm
      norm_num)

/-- Rules refuting C5 as stated: a job of priority 10 waiting 1 is raised
to 100, and a job of priority 100 waiting 2 is lowered to 50. The list is
sorted by descending threshold, as parseArguments produces. -/
def rulesC5 : List EscalationRule :=
  [⟨2, ⟨[⟨OperatorIn, [100]⟩]⟩, 50⟩, ⟨1, ⟨[⟨OperatorIn, [10]⟩]⟩, 100⟩]

/-- Job refuting C5 as stated: priority 10, created at time 1. -/
def jobC5 : JobInfo := ⟨"j5c", "q1", 10, 1, true⟩

/-- Counterexample to C5 as stated: two session-open passes at increasing
times 2 and 3 take the job's priority from 100 after the first pass down
to 50 after the second. -/
theorem timePriority_priority_decrease_cex :
    (2 : Int) ≤ 3 ∧ RulesSortedDesc rulesC5 ∧
    (escalateJob rulesC5 2 jobC5).priority = 100 ∧
    (escalateJob rulesC5 3 (escalateJob rulesC5 2 jobC5)).priority = 50 ∧
    (escalateJob rulesC5 3 (escalateJob rulesC5 2 jobC5)).priority <
      (escalateJob rulesC5 2 jobC5).priority := by
  refine ⟨by norm_num, ?_, by decide, by decide, by decide⟩
  norm_num [RulesSortedDesc, rulesC5, List.pairwise_cons]

/-! Claim C4: the groupquota plugin. Quantities are integers in the
canonical unit of each resource name (milli for cpu, bytes for memory);
the canonical quantity ordering is then integer order. A resource list is
a partial map from resource name to quantity, as presence in the map
matters to isOverQuota. -/

/-- The fields of api.Resource that groupquota reads. -/
structure GQResource where
  milliCPU : Int
  memory : Int
  scalarResources : List (String × Int)
  deriving Repr, DecidableEq

/-- IsEmpty of the host api.Resource: no positive component. -/
def GQResource.IsEmpty (r : GQResource) : Bool :=
  decide (r.milliCPU ≤ 0) && decide (r.memory ≤ 0) &&
    r.scalarResources.all fun nv => decide (nv.2 ≤ 0)

/-- A pod group as groupquota reads it: its annotation map (a nil map and
an empty map are indistinguishable to the lookups performed). -/
structure GQPodGroup where
  annotations : List (String × String)
  deriving Repr, DecidableEq

/-- The fields of api.JobInfo that groupquota reads. -/
structure GQJobInfo where
  allocated : GQResource
  podGroup : Option GQPodGroup
  deriving Repr, DecidableEq

/-- isJobAllocated: the job holds some allocated resources. -/
def isJobAllocated (job : GQJobInfo) : Bool :=
  !job.allocated.IsEmpty

/-- The annotation value under the key with presence information: none
when the pod group is nil or the key is absent (the skip chain shared by
getJobGroup and the usage-accumulation loop). -/
def jobAnnotationValue (job : GQJobInfo) (key : String) : Option String :=
  match job.podGroup with
  | none => none
  | some pg => pg.annotations.lookup key

/-- getJobGroup: the annotation value under the key, or the empty string
when the pod group is nil or the key is absent (the Go map lookup without
comma-ok yields the zero value). -/
def getJobGroup (job : GQJobInfo) (key : String) : String :=
  match jobAnnotationValue job key with
  | none => ""
  | some v => v

/-- Add a quantity to one entry of a resource list, creating the entry
from the zero quantity when absent. -/
def rlAdd (usage : String → Option Int) (name : String) (q : Int) :
    String → Option Int :=
  fun n => if n = name then some ((usage name).getD 0 + q) else usage n

/-- addResourceList: milli-CPU goes to cpu and memory bytes to memory
when positive; every named scalar is added unconditionally. -/
def addResourceList (usage : String → Option Int) (res : GQResource) :
    String → Option Int :=
  res.scalarResources.foldl (fun u nv => rlAdd u nv.1 nv.2)
    (if 0 < res.memory then
       rlAdd (if 0 < res.milliCPU then rlAdd usage "cpu" res.milliCPU else usage)
         "memory" res.memory
     else if 0 < res.milliCPU then rlAdd usage "cpu" res.milliCPU else usage)

/-- One step of the usage-accumulation loop of OnSessionOpen: jobs
without allocation, without a pod group, or without the annotation are
skipped; otherwise the job's allocation is added to its group's usage. -/
def gqStep (key : String) (acc : String → Option (String → Option Int))
    (job : GQJobInfo) : String → Option (String → Option Int) :=
  if !isJobAllocated job then acc
  else
    match jobAnnotationValue job key with
    | none => acc
    | some groupName =>
      fun g =>
        if g = groupName then
          some (addResourceList ((acc groupName).getD fun _ => none) job.allocated)
        else acc g

/-- The per-group usage map after the accumulation loop; none for groups
no allocated annotated job contributed to. -/
def gqGroupUsage (key : String) (jobs : List GQJobInfo) :
    String → Option (String → Option Int) :=
  jobs.foldl (gqStep key) fun _ => none

/-- isOverQuota: some resource present in both the quota table and the
usage has usage at least the limit. -/
def isOverQuota (usage : String → Option Int) (quota : List (String × Int)) : Bool :=
  quota.any fun nl =>
    match usage nl.1 with
    | none => false
    | some used => decide (nl.2 ≤ used)

/-- The overQuotaGroups map of OnSessionOpen: a group is flagged when it
has accumulated usage and that usage is over quota; absent groups read
back as false. -/
def overQuotaGroups (key : String) (quota : List (String × Int))
    (jobs : List GQJobInfo) (group : String) : Bool :=
  match gqGroupUsage key jobs group with
  | none => false
  | some usage => isOverQuota usage quota

/-- The registered job-order callback. The arguments are the host's
opaque values; a nil job makes getJobGroup dereference a nil pointer,
a panic modelled as none. -/
def gqJobOrderFn (key : String) (quota : List (String × Int))
    (jobs : List GQJobInfo) (l r : Option GQJobInfo) : Option Int :=
  match l, r with
  | some lv, some rv =>
    if overQuotaGroups key quota jobs (getJobGroup lv key) &&
        !overQuotaGroups key quota jobs (getJobGroup rv key) then some 1
    else if !overQuotaGroups key quota jobs (getJobGroup lv key) &&
        overQuotaGroups key quota jobs (getJobGroup rv key) then some (-1)
    else some 0
  | _, _ => none

theorem gqGroupUsage_no_empty_group (key : String) :
    ∀ jobs : List GQJobInfo,
      (∀ j ∈ jobs, isJobAllocated j = true → jobAnnotationValue j key ≠ some "") →
      ∀ acc : String → Option (String → Option Int), acc "" = none →
        (jobs.foldl (gqStep key) acc) "" = none := by
  intro jobs
  induction jobs with
  | nil => intro _ acc hacc; exact hacc
  | cons j rest ih =>
    intro h acc hacc
    have hrest := fun j2 hj2 => h j2 (List.mem_cons_of_mem _ hj2)
    simp only [List.foldl_cons]
    refine ih hrest (gqStep key acc j) ?_
    unfold gqStep
    by_cases ha : isJobAllocated j = true
    · simp only [ha, Bool.not_true, Bool.false_eq_true, if_false]
      cases hann : jobAnnotationValue j key with
      | none => exact hacc
      | some groupName =>
        have hne : groupName ≠ "" := by
          intro hgn
          subst hgn
          exact h j (List.mem_cons_self _ _) ha hann
        simp [Ne.symm hne, hacc]
    · have ha' : isJobAllocated j = false := by
        cases hq : isJobAllocated j
        · rfl
        · exact absurd hq ha
      simp [ha', hacc]

/-- C4 as amended: the comparator returns 1 when L's group is over quota
and R's is not, -1 in the reverse case and 0 otherwise; a job without the
group annotation is treated as belonging to the group named by the empty
string, and that group is never over quota provided no allocated job
carries the annotation with an empty value (an allocated job whose
annotation value is the empty string can push the empty-named group over
quota, the case refuted by the counterexample). -/
theorem groupquota_jobOrder_spec (key : String) (quota : List (String × Int))
    (jobs : List GQJobInfo) (L R : GQJobInfo) :
    ((overQuotaGroups key quota jobs (getJobGroup L key) = false ∧
      overQuotaGroups key quota jobs (getJobGroup R key) = true) →
        gqJobOrderFn key quota jobs (some L) (some R) = some (-1)) ∧
    ((overQuotaGroups key quota jobs (getJobGroup L key) = true ∧
      overQuotaGroups key quota jobs (getJobGroup R key) = false) →
        gqJobOrderFn key quota jobs (some L) (some R) = some 1) ∧
    ((overQuotaGroups key quota jobs (getJobGroup L key) =
      overQuotaGroups key quota jobs (getJobGroup R key)) →
        gqJobOrderFn key quota jobs (some L) (some R) = some 0) ∧
    ((∀ j ∈ jobs, isJobAllocated j = true → jobAnnotationValue j key ≠ some "") →
      ∀ N : GQJobInfo, jobAnnotationValue N key = none →
        overQuotaGroups key quota jobs (getJobGroup N key) = false) := by
  refine ⟨?_, ?_, ?_, ?_⟩
  · rintro ⟨hl, hr⟩
    simp [gqJobOrderFn, hl, hr]
  · rintro ⟨hl, hr⟩
    simp [gqJobOrderFn, hl, hr]
  · intro heq
    cases hl : overQuotaGroups key quota jobs (getJobGroup L key) <;>
      rw [hl] at heq <;> simp [gqJobOrderFn, hl, heq.symm]
  · intro hnoempty N hN
    have hgrp : getJobGroup N key = "" := by
      unfold getJobGroup
      rw [hN]
    rw [hgrp]
    unfold overQuotaGroups gqGroupUsage
    rw [gqGroupUsage_no_empty_group key jobs hnoempty (fun _ => none) rfl]

/-- Quota table for the groupquota witnesses: 1000 milli of cpu. -/
def gqQuota : List (String × Int) := [("cpu", 1000)]

/-- Running job of team a holding one cpu, for the C4 witness. -/
def gqRunW : GQJobInfo := ⟨⟨1000, 0, []⟩, some ⟨[("team", "a")]⟩⟩

/-- Pending job of team a, for the C4 witness. -/
def gqJaW : GQJobInfo := ⟨⟨0, 0, []⟩, some ⟨[("team", "a")]⟩⟩

/-- Pending job of team b, for the C4 witness. -/
def gqJbW : GQJobInfo := ⟨⟨0, 0, []⟩, some ⟨[("team", "b")]⟩⟩

/-- Pending job without the group annotation, for the C4 witness. -/
def gqJnW : GQJobInfo := ⟨⟨0, 0, []⟩, none⟩

/-- Session jobs for the C4 witness. -/
def gqJobsW : List GQJobInfo := [gqRunW, gqJaW, gqJbW, gqJnW]

/-- Witness for the amended C4: team a is over quota, so its pending job
is ranked after team b's, equal flags compare as 0, and the unannotated
job's group is not over quota. -/
theorem groupquota_jobOrder_spec_witness :
    gqJobOrderFn "team" gqQuota gqJobsW (some gqJaW) (some gqJbW) = some 1 ∧
    gqJobOrderFn "team" gqQuota gqJobsW (some gqJbW) (some gqJaW) = some (-1) ∧
    gqJobOrderFn "team" gqQuota gqJobsW (some gqJbW) (some gqJbW) = some 0 ∧
    overQuotaGroups "team" gqQuota gqJobsW (getJobGroup gqJnW "team") = false := by
  refine ⟨?_, ?_, ?_, ?_⟩
  · exact (groupquota_jobOrder_spec "team" gqQuota gqJobsW gqJaW gqJbW).2.1
      ⟨by decide, by decide⟩
  · exact (groupquota_jobOrder_spec "team" gqQuota gqJobsW gqJbW gqJaW).1
      ⟨by decide, by decide⟩
  · exact (groupquota_jobOrder_spec "team" gqQuota gqJobsW gqJbW gqJbW).2.2.1 (by decide)
  · exact (groupquota_jobOrder_spec "team" gqQuota gqJobsW gqJnW gqJbW).2.2.2
      (by decide) gqJnW (by decide)

/-- An allocated job carrying the group annotation with an empty string
value: it accumulates usage under the group named by the empty string. -/
def gqJobEmptyAnn : GQJobInfo := ⟨⟨2000, 0, []⟩, some ⟨[("team", "")]⟩⟩

/-- Counterexample to C4 as stated: with an allocated job whose
annotation value is the empty string, the empty-named group goes over
quota, and a job without the annotation is then ranked as over-quota
(+1) against a job of group b. -/
theorem groupquota_unannotated_overquota_cex :
    jobAnnotationValue gqJnW "team" = none ∧
    overQuotaGroups "team" gqQuota [gqJobEmptyAnn] (getJobGroup gqJnW "team") = true ∧
    gqJobOrderFn "team" gqQuota [gqJobEmptyAnn] (some gqJnW) (some gqJbW) = some 1 := by
  refine ⟨rfl, by decide, by decide⟩

/-! Claim C6: panic boundaries of the registered callbacks. -/

/-- Counterexample to C6 as stated: the group-quota job-order comparator
invoked with a nil left job dereferences the nil pointer (a panic,
modelled as none) instead of returning the neutral value 0. -/
theorem groupquota_nil_job_panics_cex :
    gqJobOrderFn "team" gqQuota gqJobsW none (some gqJbW) = none ∧
    gqJobOrderFn "team" gqQuota gqJobsW none (some gqJbW) ≠ some 0 := by
  exact ⟨rfl, by decide⟩

/-- C6 as amended: the timed-out check returns false on a nil task, a
nil pod or a pod without annotations; the waiting duration is 0 on a nil
job or a zero creation timestamp; the time-priority pass skips nil jobs;
but the ex-priority preemptable callback panics (none) when a task's job
id is absent from the session job map, and the group-quota comparator
panics (none) on a nil job argument, instead of returning neutral
values. -/
theorem callbacks_neutral_and_panic_boundaries :
    (∀ (cfg : ExConfig) (now : Int), isTaskTimedOut cfg none now = false) ∧
    (∀ (cfg : ExConfig) (now : Int) (j : String) (p : Int),
      isTaskTimedOut cfg (some ⟨j, p, none⟩) now = false) ∧
    (∀ (cfg : ExConfig) (now : Int) (j : String) (p : Int) (st : Option Int) (ct : Int),
      isTaskTimedOut cfg (some ⟨j, p, some ⟨[], st, ct⟩⟩) now = false) ∧
    (∀ now : Int, getWaitingDuration none now = 0) ∧
    (∀ (now : Int) (j : JobInfo),
      getWaitingDuration (some { j with creationTimestamp := 0 }) now = 0) ∧
    (∀ (rules : List EscalationRule) (now : Int),
      timePriorityOnSessionOpen rules now [none] = [none]) ∧
    (∀ (cfg : ExConfig) (T v : TaskInfo) (now : Int),
      preemptableFn cfg (fun _ => none) T [v] now = none) ∧
    gqJobOrderFn "team" gqQuota gqJobsW none (some gqJaW) = none := by
  refine ⟨fun _ _ => rfl, ?_, ?_, fun _ => rfl, ?_, ?_, fun _ _ _ _ => rfl, rfl⟩
  · intro cfg now j p
    by_cases hk : cfg.maxRunTimeAnnotationKey = "" <;> simp [isTaskTimedOut, hk]
  · intro cfg now j p st ct
    by_cases hk : cfg.maxRunTimeAnnotationKey = "" <;> simp [isTaskTimedOut, hk]
  · intro now j
    simp [getWaitingDuration]
  · intro rules now
    by_cases h : rules.length = 0 <;> simp [timePriorityOnSessionOpen, h]

end Volcano
